import Mathlib

set_option maxRecDepth 8000

/-!
Verification of the Modbus RTU library (`src/ModbusRtu.h`).

A shallow embedding of the protocol engine of `ModbusRtu.h`: the CRC-16
engine, the frame-validation helpers, the master/slave poll state machines,
the query builder, and the register-store accessor API.  Machine integers
are modelled as `Nat` with explicit `% 2^w` where C truncation matters
(`uint8_t`, `uint16_t`, `uint32_t`).  The serial port is modelled by the
list of bytes currently available to be drained, and `millis()` by an
explicit `Nat` argument.  Transmission is modelled by returning the byte
sequence handed to `port->write` (or `none` when nothing is sent).
-/

namespace ModbusRtu

/-! ## Constants (`#define`s and enums of the source) -/

def T35 : Nat := 5
def MAX_BUFFER : Nat := 64
def SIZE_R_REGS : Nat := 16
def SIZE_RW_REGS : Nat := 16
def SIZE_R_BITS : Nat := 16
def SIZE_RW_BITS : Nat := 16

def RESPONSE_SIZE : Nat := 6
def EXCEPTION_SIZE : Nat := 3

/-- Telegram frame positions (`enum MESSAGE`). -/
def ID : Nat := 0
def FUNC : Nat := 1
def ADD_HI : Nat := 2
def ADD_LO : Nat := 3
def NB_HI : Nat := 4
def NB_LO : Nat := 5
def BYTE_CNT : Nat := 6

def COM_IDLE : Nat := 0
def COM_WAITING : Nat := 1

/-- `enum ERR_LIST` (signed return codes). -/
def ERR_NOT_MASTER : Int := -1
def ERR_POLLING : Int := -2
def ERR_BUFF_OVERFLOW : Int := -3
def ERR_BAD_CRC : Int := -4
def ERR_EXCEPTION : Int := -5

/-- Exception / error codes (`enum { NO_REPLY = 255, ... }`). -/
def NO_REPLY : Nat := 255
def EXC_FUNC_CODE : Nat := 1
def EXC_ADDR_RANGE : Nat := 2
def EXC_REGS_QUANT : Nat := 3
def EXC_EXECUTE : Nat := 4

/-- `const unsigned char fctsupported[]`. -/
def fctsupported : List Nat := [1, 2, 3, 4, 5, 6, 15, 16]

/-- 2^32, the modulus of `uint32_t` (the type of `millis()` and the deadlines). -/
def U32 : Nat := 4294967296

/-! ## Arduino helpers used by the source -/

/-- Arduino `word(h, l)`: `(uint16_t)((h << 8) | l)`. -/
def mkWord (hi lo : Nat) : Nat := ((hi <<< 8) ||| lo) &&& 0xFFFF

/-- Arduino `highByte(w)`: `(uint8_t)((w) >> 8)`. -/
def highByte (w : Nat) : Nat := (w >>> 8) &&& 0xFF

/-- Arduino `lowByte(w)`: `(uint8_t)((w) & 0xff)`. -/
def lowByte (w : Nat) : Nat := w &&& 0xFF

/-- Conversion of a C `uint8_t` value into the `int8_t` function return type
(two's complement reinterpretation, as on AVR). -/
def toInt8 (x : Nat) : Int := if x % 256 < 128 then (x % 256 : Nat) else (x % 256 : Nat) - 256

/-- Conversion of a C `int8_t` value stored into a `uint8_t` variable. -/
def int8ToUint8 (i : Int) : Nat := (i % 256).toNat

/-- Arduino `bitRead(x, n)`. -/
def bitRead (x n : Nat) : Nat := (x >>> n) &&& 1

/-- Arduino `bitWrite(x, n, b)` on a `uint16_t` word (a bit-area cell):
`bitSet` ors in `1UL << n`, `bitClear` ands with the 32-bit complement of
`1UL << n`; the result is truncated back into the `uint16_t` cell. -/
def bitWrite16 (x n : Nat) (b : Bool) : Nat :=
  if b then (x ||| (1 <<< n)) % 65536 else (x &&& (4294967295 ^^^ (1 <<< n))) % 65536

/-- Arduino `bitWrite(x, n, b)` on a `uint8_t` cell (a frame buffer byte). -/
def bitWrite8 (x n : Nat) (b : Bool) : Nat :=
  if b then (x ||| (1 <<< n)) % 256 else (x &&& (4294967295 ^^^ (1 <<< n))) % 256

/-! ## CRC engine (`Modbus::calcCRC`) -/

/-- One iteration of the inner loop of `calcCRC`:
`flag = temp & 0x0001; temp >>= 1; if (flag) temp ^= 0xA001;`. -/
def crcRound (temp : Nat) : Nat :=
  if temp &&& 0x0001 = 1 then (temp >>> 1) ^^^ 0xA001 else temp >>> 1

/-- One iteration of the outer loop of `calcCRC`: xor the next message byte
into the running value, then run the inner loop 8 times. -/
def crcByte (temp b : Nat) : Nat := crcRound^[8] (temp ^^^ b)

/-- `Modbus::calcCRC(u8length)` over the first `u8length` buffer bytes,
modelled as a function of that byte list: seed `0xFFFF`, fold `crcByte`,
then swap the two result bytes (`temp2 = temp >> 8; temp = (temp << 8) | temp2;
temp &= 0xFFFF;`), so the returned value has the wire-order low CRC byte in
its high position. -/
def calcCRC (msg : List Nat) : Nat :=
  (((msg.foldl crcByte 0xFFFF) <<< 8) ||| ((msg.foldl crcByte 0xFFFF) >>> 8)) &&& 0xFFFF

/-- The 16-bit value `validateRequest`/`validateAnswer` read from the last two
frame bytes: `u16MsgCRC = (au8Buffer[u8BufferSize - 2] << 8) | au8Buffer[u8BufferSize - 1]`
(a `uint16_t`). -/
def msgCRC (frame : List Nat) : Nat :=
  (((frame.getD (frame.length - 2) 0) <<< 8) ||| frame.getD (frame.length - 1) 0) &&& 0xFFFF

/-- The CRC comparison both validators start with:
`calcCRC(u8BufferSize - 2) == u16MsgCRC`. -/
def crcOK (frame : List Nat) : Bool :=
  calcCRC (frame.take (frame.length - 2)) == msgCRC frame

/-- The CRC-appending step of `Modbus::sendTxBuffer`:
`au8Buffer[size] = u16crc >> 8; au8Buffer[size+1] = u16crc & 0x00ff;` —
because `calcCRC` returns the byte-swapped value, the byte emitted first is
the wire-order low CRC byte. -/
def appendCRC (msg : List Nat) : List Nat :=
  msg ++ [calcCRC msg >>> 8, calcCRC msg &&& 0x00FF]

/-! ## Deadline arithmetic (the two `uint32_t` deadlines) -/

/-- Arming a deadline: `u32timeOut = millis() + (unsigned long) u16timeOut;`
(in `sendTxBuffer` and the slave `poll`) and `u32time = millis() + T35;`
(in both polls) — a `uint32_t` sum, hence the `% U32`. -/
def armDeadline (now timeout : Nat) : Nat := (now + timeout) % U32

/-- The watchdog test of the master `poll` and of `getTimeOutState`:
`millis() > u32timeOut` — a direct unsigned comparison of the wrapped
counter against the stored deadline. -/
def deadlineElapsed (now deadline : Nat) : Bool := decide (now % U32 > deadline)

/-- The inter-frame silence test of both polls: `millis() < u32time`. -/
def silencePending (now deadline : Nat) : Bool := decide (now % U32 < deadline)

/-- Modelled from the spec: the wrap-free reference decision for the
watchdog, taken over an unbounded (never-wrapping) millisecond counter: a
deadline armed at `armTime` with `timeout` has elapsed at `checkTime` iff
`checkTime > armTime + timeout`. -/
def elapsedRef (armTime timeout checkTime : Nat) : Bool :=
  decide (checkTime > armTime + timeout)

/-- Modelled from the spec: the wrap-free reference decision for the
still-pending (`<`) silence test. -/
def pendingRef (armTime timeout checkTime : Nat) : Bool :=
  decide (checkTime < armTime + timeout)

/-! ## Frame validation -/

/-- `Modbus::validateRequest`.  `NO_REPLY` on a CRC mismatch,
`EXC_FUNC_CODE` for an unsupported function code, `EXC_ADDR_RANGE` when the
switch's range check fires, else 0.  `u16regs += word(...)` is a `uint16_t`
sum, hence the `% 65536`.  The `u16errCnt++` side effects inside the C
function are not tracked by this pure model (no claim reads them). -/
def validateRequest (frame : List Nat) : Nat :=
  if crcOK frame = false then NO_REPLY
  else if fctsupported.contains (frame.getD FUNC 0) = false then EXC_FUNC_CODE
  else if frame.getD FUNC 0 = 1 ∨ frame.getD FUNC 0 = 2 ∨ frame.getD FUNC 0 = 15 then
    if (mkWord (frame.getD ADD_HI 0) (frame.getD ADD_LO 0)
        + mkWord (frame.getD NB_HI 0) (frame.getD NB_LO 0)) % 65536 > SIZE_RW_BITS
    then EXC_ADDR_RANGE else 0
  else if frame.getD FUNC 0 = 5 then
    if mkWord (frame.getD ADD_HI 0) (frame.getD ADD_LO 0) > SIZE_RW_BITS
    then EXC_ADDR_RANGE else 0
  else if frame.getD FUNC 0 = 6 then
    if mkWord (frame.getD ADD_HI 0) (frame.getD ADD_LO 0) > SIZE_RW_REGS
    then EXC_ADDR_RANGE else 0
  else if frame.getD FUNC 0 = 3 ∨ frame.getD FUNC 0 = 4 ∨ frame.getD FUNC 0 = 16 then
    if (mkWord (frame.getD ADD_HI 0) (frame.getD ADD_LO 0)
        + mkWord (frame.getD NB_HI 0) (frame.getD NB_LO 0)) % 65536 > SIZE_RW_REGS
    then EXC_ADDR_RANGE else 0
  else 0

/-- `Modbus::validateAnswer`.  The exception branch returns the C constant
`ERR_EXCEPTION` (−5) through the `uint8_t` return type, i.e. 251. -/
def validateAnswer (frame : List Nat) : Nat :=
  if crcOK frame = false then NO_REPLY
  else if (frame.getD FUNC 0) &&& 0x80 ≠ 0 then int8ToUint8 ERR_EXCEPTION
  else if fctsupported.contains (frame.getD FUNC 0) = false then EXC_FUNC_CODE
  else 0

/-- `Modbus::buildException` applied to the frame buffer: overwrite the
first three cells and set the size to `EXCEPTION_SIZE`.  Note the function
byte is `u8func + 0x80` computed on a `uint8_t`, i.e. mod 256 — not
`u8func | 0x80`. -/
def buildException (u8exception u8id : Nat) (buffer : List Nat) : List Nat × Nat :=
  (((buffer.set ID u8id).set FUNC ((buffer.getD FUNC 0 + 0x80) % 256)).set 2 u8exception,
   EXCEPTION_SIZE)

/-! ## Engine state -/

/-- The mutable state of one `Modbus` engine instance (the private fields
the claims touch).  `au16regs` models the memory the `uint16_t*` pointer
aims at. -/
structure MB where
  u8id : Nat
  u8state : Nat
  u8lastError : Nat
  au8Buffer : List Nat
  u8BufferSize : Nat
  u8lastRec : Nat
  au16regs : List Nat
  u16InCnt : Nat
  u16OutCnt : Nat
  u16errCnt : Nat
  u16timeOut : Nat
  u32time : Nat
  u32timeOut : Nat
  u8regsize : Nat
  r_regArea : List Nat
  rw_regArea : List Nat
  r_bitArea : List Nat
  rw_bitArea : List Nat
deriving Repr, DecidableEq

/-- `modbus_t`, the master query descriptor. -/
structure Telegram where
  u8id : Nat
  u8fct : Nat
  u16RegAdd : Nat
  u16CoilsNo : Nat
  au16reg : List Nat
deriving Repr, DecidableEq

/-! ## Serial buffer transfer -/

/-- The per-byte write trace of the drain loop of `Modbus::getRxBuffer`:
`au8Buffer[u8BufferSize] = port->read(); u8BufferSize++;` — the loop runs
for every available byte (it never stops at the buffer end), `u8BufferSize`
being a `uint8_t`.  Each entry is (array index written, byte value): an
index at or beyond `MAX_BUFFER` is a write outside the 64-byte array. -/
def rxTrace (input : List Nat) : List (Nat × Nat) :=
  (input.foldl (fun (acc : List (Nat × Nat) × Nat) b =>
    (acc.1 ++ [(acc.2, b)], (acc.2 + 1) % 256)) ([], 0)).1

/-- `Modbus::getRxBuffer`: drain the port into `au8Buffer`, count the
message, flag `bBuffOverflow` as soon as `u8BufferSize >= MAX_BUFFER` after
an increment — which happens exactly when at least `MAX_BUFFER` bytes are
drained — and return `ERR_BUFF_OVERFLOW` or the new buffer size.  The cell
writes are `rxTrace input`; a write whose index falls outside the 64-cell
array is an out-of-bounds array write in the C (`List.set` discards it
here, so only the trace shows it). -/
def getRxBuffer (st : MB) (input : List Nat) : MB × Int :=
  ({ st with
     au8Buffer := (rxTrace input).foldl (fun b iw => b.set iw.1 iw.2) st.au8Buffer,
     u8BufferSize := input.length % 256,
     u16InCnt := (st.u16InCnt + 1) % 65536,
     u16errCnt := if MAX_BUFFER ≤ input.length then (st.u16errCnt + 1) % 65536
                  else st.u16errCnt },
   if MAX_BUFFER ≤ input.length then ERR_BUFF_OVERFLOW else (input.length % 256 : Nat))

/-- `Modbus::sendTxBuffer`: append the CRC to the buffer, hand the frame to
`port->write` (returned here as the transmitted byte list), flush, clear
the buffer size, arm the watchdog (`u32timeOut = millis() + u16timeOut`)
and count the outgoing message.  When `u8BufferSize + 2 ≤ MAX_BUFFER` — true
on every path a claim exercises — the transmitted bytes are exactly
`appendCRC` of the buffer's first `u8BufferSize` cells.  The RS-485
transmit-enable register juggling has no observable effect on this state. -/
def sendTxBuffer (st : MB) (millis : Nat) : MB × List Nat :=
  ({ st with
     au8Buffer := (st.au8Buffer.set st.u8BufferSize
         (calcCRC (st.au8Buffer.take st.u8BufferSize) >>> 8)).set (st.u8BufferSize + 1)
         (calcCRC (st.au8Buffer.take st.u8BufferSize) &&& 0x00FF),
     u8BufferSize := 0,
     u32timeOut := armDeadline millis st.u16timeOut,
     u16OutCnt := (st.u16OutCnt + 1) % 65536 },
   appendCRC (st.au8Buffer.take st.u8BufferSize))

/-! ## Master query -/

/-- `Modbus::query(telegram)`.  The three guards return −2 (`u8id != 0`),
−1 (`u8state != COM_IDLE`) and −3 (telegram target 0 or above 247) — note
the source returns −2 for the non-master caller although the enum names
−1 `ERR_NOT_MASTER`, and −3 although the enum names −3 `ERR_BUFF_OVERFLOW`.
Afterwards the header and the per-function payload are written into the
frame buffer and sent; for `MB_FC_WRITE_MULTIPLE_COILS` the payload loop
body is empty in the source, so only the 7 header bytes are sent; a
function code outside the switch leaves the stale `u8BufferSize`
untouched. -/
def query (st : MB) (tel : Telegram) (millis : Nat) : Int × MB × Option (List Nat) :=
  if st.u8id ≠ 0 then (-2, st, none)
  else if st.u8state ≠ COM_IDLE then (-1, st, none)
  else if tel.u8id = 0 ∨ tel.u8id > 247 then (-3, st, none)
  else
    let st0 := { st with au16regs := tel.au16reg }
    let b0 := (((st0.au8Buffer.set ID tel.u8id).set FUNC tel.u8fct).set ADD_HI
        (highByte tel.u16RegAdd)).set ADD_LO (lowByte tel.u16RegAdd)
    let built :=
      if tel.u8fct = 1 ∨ tel.u8fct = 2 ∨ tel.u8fct = 3 ∨ tel.u8fct = 4 then
        ((b0.set NB_HI (highByte tel.u16CoilsNo)).set NB_LO (lowByte tel.u16CoilsNo), 6)
      else if tel.u8fct = 5 then
        ((b0.set NB_HI (if tel.au16reg.getD 0 0 > 0 then 0xFF else 0)).set NB_LO 0, 6)
      else if tel.u8fct = 6 then
        ((b0.set NB_HI (highByte (tel.au16reg.getD 0 0))).set NB_LO
          (lowByte (tel.au16reg.getD 0 0)), 6)
      else if tel.u8fct = 15 then
        let u8regsno := (tel.u16CoilsNo / 16) % 256
        let u8bytesno := if tel.u16CoilsNo % 16 ≠ 0 then (u8regsno * 2 + 1) % 256
                         else (u8regsno * 2) % 256
        (((b0.set NB_HI (highByte tel.u16CoilsNo)).set NB_LO
           (lowByte tel.u16CoilsNo)).set (NB_LO + 1) u8bytesno, 7)
      else if tel.u8fct = 16 then
        let b1 := ((b0.set NB_HI (highByte tel.u16CoilsNo)).set NB_LO
            (lowByte tel.u16CoilsNo)).set (NB_LO + 1) ((tel.u16CoilsNo * 2) % 256)
        (List.range tel.u16CoilsNo).foldl
          (fun (acc : List Nat × Nat) i =>
            ((acc.1.set acc.2 (highByte (tel.au16reg.getD i 0))).set ((acc.2 + 1) % 256)
              (lowByte (tel.au16reg.getD i 0)), (acc.2 + 2) % 256))
          (b1, 7)
      else (b0, st0.u8BufferSize)
    let st1 := { st0 with au8Buffer := built.1, u8BufferSize := built.2 }
    let sent := sendTxBuffer st1 millis
    (0, { sent.1 with u8state := COM_WAITING }, some sent.2)

/-! ## Master answer decoding -/

/-- `Modbus::get_FC1` — the entire loop body is commented out in the
source, so the master's FC1/FC2 dispatch leaves `au16regs` unchanged. -/
def get_FC1 (_buffer _au16regs : List Nat) : List Nat := _au16regs

/-- `Modbus::get_FC3`: copy `au8Buffer[2] / 2` big-endian words from the
reply payload (starting at byte 3) into `au16regs`. -/
def get_FC3 (buffer au16regs : List Nat) : List Nat :=
  (List.range ((buffer.getD 2 0) / 2)).foldl
    (fun regs i => regs.set i (mkWord (buffer.getD (3 + 2 * i) 0) (buffer.getD (4 + 2 * i) 0)))
    au16regs

/-! ## Master poll -/

/-- `Modbus::poll()` (master).  `input` is the byte sequence the port holds
(`port->available()` = its length, as a `uint8_t`).  After the drain, every
read of the frame goes through the first `input.length` buffer cells, which
the drain filled with `input` itself, so the frame is `input` (the overflow
case never reaches a frame read: `ERR_BUFF_OVERFLOW < 7`).  The
`u16errCnt++` inside `validateAnswer` is not tracked (see there). -/
def masterPoll (st : MB) (millis : Nat) (input : List Nat) : Int × MB × Option (List Nat) :=
  if deadlineElapsed millis st.u32timeOut then
    (0, { st with
          u8state := COM_IDLE, u8lastError := NO_REPLY,
          u16errCnt := (st.u16errCnt + 1) % 65536 }, none)
  else if input.length % 256 = 0 then (0, st, none)
  else if input.length % 256 ≠ st.u8lastRec then
    (0, { st with u8lastRec := input.length % 256, u32time := armDeadline millis T35 }, none)
  else if silencePending millis st.u32time then (0, st, none)
  else
    let rx := getRxBuffer { st with u8lastRec := 0 } input
    if rx.2 < 7 then
      (rx.2, { rx.1 with u8state := COM_IDLE, u16errCnt := (rx.1.u16errCnt + 1) % 65536 },
       none)
    else
      if validateAnswer input ≠ 0 then
        (toInt8 (validateAnswer input), { rx.1 with u8state := COM_IDLE }, none)
      else
        let st3 :=
          if input.getD FUNC 0 = 1 ∨ input.getD FUNC 0 = 2 then
            { rx.1 with au16regs := get_FC1 input rx.1.au16regs }
          else if input.getD FUNC 0 = 3 ∨ input.getD FUNC 0 = 4 then
            { rx.1 with au16regs := get_FC3 input rx.1.au16regs }
          else rx.1
        ((input.length % 256 : Nat), { st3 with u8state := COM_IDLE }, none)

/-! ## Slave function-code handlers -/

/-- The bit-packing loop shared by `process_FC1` and `process_FC2`: read
`count` bits of `bitArea` starting at coil `start` and pack them LSB-first
into the buffer from cell `size0` on.  Returns the new buffer and size. -/
def packBits (bitArea : List Nat) (start count : Nat) (buf0 : List Nat) (size0 : Nat) :
    List Nat × Nat :=
  let r := (List.range count).foldl
    (fun (acc : List Nat × Nat × Nat) cur =>
      let u16coil := (start + cur) % 65536
      let bit := bitRead (bitArea.getD ((u16coil / 16) % 256) 0) (u16coil % 16) = 1
      let buf2 := acc.1.set acc.2.1 (bitWrite8 (acc.1.getD acc.2.1 0) acc.2.2 bit)
      if acc.2.2 + 1 > 7 then (buf2, acc.2.1 + 1, 0) else (buf2, acc.2.1, acc.2.2 + 1))
    (buf0, size0, 0)
  (r.1, r.2.1)

/-- `Modbus::process_FC1` (the slave serves both FC1 and FC2 requests with
it): pack the requested `rw_bitArea` bits into the reply, byte count at
cell `ADD_HI`, and send.  Returns `u8CopyBufferSize` through `int8_t`. -/
def process_FC1 (st : MB) (millis : Nat) (buffer : List Nat) : Int × MB × Option (List Nat) :=
  let u16Coilno := mkWord (buffer.getD NB_HI 0) (buffer.getD NB_LO 0)
  let u8bytesno := if u16Coilno % 8 ≠ 0 then ((u16Coilno / 8) % 256 + 1) % 256
                   else (u16Coilno / 8) % 256
  let packed := packBits st.rw_bitArea (mkWord (buffer.getD ADD_HI 0) (buffer.getD ADD_LO 0))
    u16Coilno (buffer.set ADD_HI u8bytesno) ADD_LO
  let size2 := if u16Coilno % 8 ≠ 0 then packed.2 + 1 else packed.2
  let sent := sendTxBuffer { st with au8Buffer := packed.1, u8BufferSize := size2 } millis
  (toInt8 ((size2 + 2) % 256), sent.1, some sent.2)

/-- `Modbus::process_FC2`: as `process_FC1` but over `r_bitArea` (the slave
poll never dispatches to it — FC2 requests land in `process_FC1`). -/
def process_FC2 (st : MB) (millis : Nat) (buffer : List Nat) : Int × MB × Option (List Nat) :=
  let u16Coilno := mkWord (buffer.getD NB_HI 0) (buffer.getD NB_LO 0)
  let u8bytesno := if u16Coilno % 8 ≠ 0 then ((u16Coilno / 8) % 256 + 1) % 256
                   else (u16Coilno / 8) % 256
  let packed := packBits st.r_bitArea (mkWord (buffer.getD ADD_HI 0) (buffer.getD ADD_LO 0))
    u16Coilno (buffer.set ADD_HI u8bytesno) ADD_LO
  let size2 := if u16Coilno % 8 ≠ 0 then packed.2 + 1 else packed.2
  let sent := sendTxBuffer { st with au8Buffer := packed.1, u8BufferSize := size2 } millis
  (toInt8 ((size2 + 2) % 256), sent.1, some sent.2)

/-- `Modbus::process_FC5`: write one `rw_bitArea` bit and echo the request
header as the reply. -/
def process_FC5 (st : MB) (millis : Nat) (buffer : List Nat) : Int × MB × Option (List Nat) :=
  let u16coil := mkWord (buffer.getD ADD_HI 0) (buffer.getD ADD_LO 0)
  let sent := sendTxBuffer
    { st with
      rw_bitArea := st.rw_bitArea.set ((u16coil / 16) % 256)
        (bitWrite16 (st.rw_bitArea.getD ((u16coil / 16) % 256) 0) (u16coil % 16)
          (buffer.getD NB_HI 0 == 0xFF)),
      au8Buffer := buffer, u8BufferSize := 6 } millis
  (toInt8 ((6 + 2) % 256), sent.1, some sent.2)

/-- The raw array store `process_FC6` performs: `rw_regArea[u8add] = u16val`
with `u8add = word(au8Buffer[ADD_HI], au8Buffer[ADD_LO])` — the C write is
unguarded, so the first component is the index written whether or not it
lies inside the 16-word array. -/
def fc6WriteTarget (buffer : List Nat) : Nat × Nat :=
  (mkWord (buffer.getD ADD_HI 0) (buffer.getD ADD_LO 0),
   mkWord (buffer.getD NB_HI 0) (buffer.getD NB_LO 0))

/-- `Modbus::process_FC6`: store the value at the addressed `rw_regArea`
cell (`fc6WriteTarget` names the raw index/value of that store) and echo
the 6-byte request header as the reply. -/
def process_FC6 (st : MB) (millis : Nat) (buffer : List Nat) : Int × MB × Option (List Nat) :=
  let sent := sendTxBuffer
    { st with
      rw_regArea := st.rw_regArea.set (fc6WriteTarget buffer).1 (fc6WriteTarget buffer).2,
      au8Buffer := buffer, u8BufferSize := RESPONSE_SIZE } millis
  (toInt8 ((RESPONSE_SIZE + 2) % 256), sent.1, some sent.2)

/-- `Modbus::process_FC15`: unpack the payload bits (from frame byte 7 on)
into `rw_bitArea` and echo the first 6 request bytes as the reply. -/
def process_FC15 (st : MB) (millis : Nat) (buffer : List Nat) : Int × MB × Option (List Nat) :=
  let start := mkWord (buffer.getD ADD_HI 0) (buffer.getD ADD_LO 0)
  let u16Coilno := mkWord (buffer.getD NB_HI 0) (buffer.getD NB_LO 0)
  let final := (List.range u16Coilno).foldl
    (fun (acc : List Nat × Nat × Nat) cur =>
      let u16coil := (start + cur) % 65536
      let bTemp := bitRead (buffer.getD acc.2.1 0) acc.2.2 = 1
      let area2 := acc.1.set ((u16coil / 16) % 256)
        (bitWrite16 (acc.1.getD ((u16coil / 16) % 256) 0) (u16coil % 16) bTemp)
      if acc.2.2 + 1 > 7 then (area2, (acc.2.1 + 1) % 256, 0) else (area2, acc.2.1, acc.2.2 + 1))
    (st.rw_bitArea, 7, 0)
  let sent := sendTxBuffer
    { st with rw_bitArea := final.1, au8Buffer := buffer, u8BufferSize := 6 } millis
  (toInt8 ((6 + 2) % 256), sent.1, some sent.2)

/-- `Modbus::process_FC16`: write the payload words into `rw_regArea` from
the start address on, zero `NB_HI`, truncate the register count into
`NB_LO`, and send the 6-byte header back.  (The C loop counter is a
`uint8_t`, so a count above 255 would never terminate there; the claims
only exercise validated counts, which are at most 16.) -/
def process_FC16 (st : MB) (millis : Nat) (buffer : List Nat) : Int × MB × Option (List Nat) :=
  let u8StartAdd := mkWord (buffer.getD ADD_HI 0) (buffer.getD ADD_LO 0)
  let u8regsno := mkWord (buffer.getD NB_HI 0) (buffer.getD NB_LO 0)
  let area := (List.range u8regsno).foldl
    (fun a i => a.set ((u8StartAdd + i) % 65536)
      (mkWord (buffer.getD (BYTE_CNT + 1 + i * 2) 0) (buffer.getD (BYTE_CNT + 2 + i * 2) 0)))
    st.rw_regArea
  let sent := sendTxBuffer
    { st with
      rw_regArea := area,
      au8Buffer := (buffer.set NB_HI 0).set NB_LO (u8regsno % 256),
      u8BufferSize := RESPONSE_SIZE } millis
  (toInt8 ((RESPONSE_SIZE + 2) % 256), sent.1, some sent.2)

/-! ## Slave poll -/

/-- The function-code dispatch switch of the slave `poll`.  FC1 and FC2
requests both land in `process_FC1` in the source.  The
`process_FC3`/`process_FC4` branches do not compile in the source
(`au8Buffer[2] = u8regsno * 2;` names a local of `query()` that is not in
scope there, and `highByte(rw_regArea[i]) = au8Buffer[u8BufferSize];`
assigns to an rvalue), so no behavior is modelled for them — they fall to
the `return i8state` that follows the switch, and no claim is settled
through them.  An unlisted function code also falls through to
`return i8state`. -/
def slaveDispatch (st : MB) (millis : Nat) (buffer : List Nat) (i8state : Int) :
    Int × MB × Option (List Nat) :=
  if buffer.getD FUNC 0 = 1 ∨ buffer.getD FUNC 0 = 2 then process_FC1 st millis buffer
  else if buffer.getD FUNC 0 = 5 then process_FC5 st millis buffer
  else if buffer.getD FUNC 0 = 6 then process_FC6 st millis buffer
  else if buffer.getD FUNC 0 = 15 then process_FC15 st millis buffer
  else if buffer.getD FUNC 0 = 16 then process_FC16 st millis buffer
  else (i8state, st, none)

/-- `Modbus::poll(regs, u8size)` (slave; the source writes the definition
header as `poll()` but its body uses the declared overload's `regs` and
`u8size` parameters).  As in `masterPoll`, the frame processed after the
drain is `input` itself.  A request whose CRC check fails gets no reply
(`validateRequest` = `NO_REPLY`); any other validation failure is answered
with the `buildException` frame; a validated request is dispatched. -/
def slavePoll (st : MB) (millis : Nat) (input regs : List Nat) (u8size : Nat) :
    Int × MB × Option (List Nat) :=
  let stp := { st with au16regs := regs, u8regsize := u8size }
  if input.length % 256 = 0 then (0, stp, none)
  else if input.length % 256 ≠ stp.u8lastRec then
    (0, { stp with u8lastRec := input.length % 256, u32time := armDeadline millis T35 }, none)
  else if silencePending millis stp.u32time then (0, stp, none)
  else
    let rx := getRxBuffer { stp with u8lastRec := 0 } input
    let st3 := { rx.1 with u8lastError := int8ToUint8 rx.2 }
    if rx.2 < 7 then (rx.2, st3, none)
    else
      if input.getD ID 0 ≠ stp.u8id then (0, st3, none)
      else
        if validateRequest input > 0 then
          if validateRequest input ≠ NO_REPLY then
            let exc := buildException (validateRequest input) stp.u8id input
            let sent := sendTxBuffer
              { st3 with au8Buffer := exc.1, u8BufferSize := exc.2 } millis
            (toInt8 (validateRequest input),
             { sent.1 with u8lastError := validateRequest input }, some sent.2)
          else
            (toInt8 (validateRequest input),
             { st3 with u8lastError := validateRequest input }, none)
        else
          slaveDispatch
            { st3 with u32timeOut := armDeadline millis stp.u16timeOut, u8lastError := 0 }
            millis input rx.2

/-! ## Register store accessor API -/

/-- The source uses `ERROR_OF_ADR` and `ERROR_OF_POINTER` without defining
them anywhere; they only need to be distinct from 0 (= success).  Fixed
here as 1 and 2. -/
def ERROR_OF_ADR : Nat := 1
def ERROR_OF_POINTER : Nat := 2

/-- `GetRRegs(adrReg, pRegs, nRegs)` over the read-only register area: the
guard is `(adrReg + nRegs) >= SIZE_R_REGS` — a 16-bit sum (hence the
`% 65536`), and note the `>=`, which also rejects
`adrReg + nRegs == SIZE_R_REGS`.  The NULL-pointer guard has no counterpart
here (the output buffer is a value, not a pointer); the loop's bare `++`
increment in the source is read as `++i`. -/
def GetRRegs (r_regArea : List Nat) (adrReg : Nat) (pRegs : List Nat) (nRegs : Nat) :
    Nat × List Nat :=
  if (adrReg + nRegs) % 65536 ≥ SIZE_R_REGS then (ERROR_OF_ADR, pRegs)
  else (0, (List.range nRegs).foldl
    (fun acc i => acc.set i (r_regArea.getD ((adrReg + i) % 65536) 0)) pRegs)

/-- `GetRWRegs(adrReg, pRegs, nRegs)` over the read-write register area;
same shape as `GetRRegs`. -/
def GetRWRegs (rw_regArea : List Nat) (adrReg : Nat) (pRegs : List Nat) (nRegs : Nat) :
    Nat × List Nat :=
  if (adrReg + nRegs) % 65536 ≥ SIZE_RW_REGS then (ERROR_OF_ADR, pRegs)
  else (0, (List.range nRegs).foldl
    (fun acc i => acc.set i (rw_regArea.getD ((adrReg + i) % 65536) 0)) pRegs)

/-! ## Sample engine states for concrete runs -/

/-- A freshly initialised slave engine with node address 2 that has already
observed a stable 7-byte frame on the port (`u8lastRec = 7`) with the
silence window elapsed (`u32time = 0`). -/
def sampleSlave : MB where
  u8id := 2
  u8state := 0
  u8lastError := 0
  au8Buffer := List.replicate 64 0
  u8BufferSize := 0
  u8lastRec := 7
  au16regs := []
  u16InCnt := 0
  u16OutCnt := 0
  u16errCnt := 0
  u16timeOut := 1000
  u32time := 0
  u32timeOut := 0
  u8regsize := 0
  r_regArea := List.replicate 16 0
  rw_regArea := List.replicate 16 0
  r_bitArea := List.replicate 2 0
  rw_bitArea := List.replicate 2 0

/-- A master engine (node address 0) in `COM_IDLE`. -/
def sampleMaster : MB :=
  { sampleSlave with u8id := 0, u8lastRec := 0 }

/-- A well-formed FC3 read descriptor aimed at slave 1. -/
def sampleTelegram : Telegram where
  u8id := 1
  u8fct := 3
  u16RegAdd := 0
  u16CoilsNo := 2
  au16reg := []

end ModbusRtu

/-! Theorems.

Helper lemmas first, then one theorem per claim (with its witness or
counterexample). -/

namespace ModbusRtu

lemma shiftRight_one_eq (t : Nat) : t >>> 1 = t / 2 := by
  rw [Nat.shiftRight_eq_div_pow]

lemma shl8 (x : Nat) : x <<< 8 = x * 256 := by
  rw [Nat.shiftLeft_eq]

lemma shr8 (x : Nat) : x >>> 8 = x / 256 := by
  rw [Nat.shiftRight_eq_div_pow]

lemma and_ffff (x : Nat) : x &&& 65535 = x % 65536 := by
  have h := Nat.and_pow_two_sub_one_eq_mod x 16
  norm_num at h
  exact h

lemma and_ff (x : Nat) : x &&& 255 = x % 256 := by
  have h := Nat.and_pow_two_sub_one_eq_mod x 8
  norm_num at h
  exact h

lemma lor256 (a b : Nat) (hb : b < 256) : (a * 256) ||| b = a * 256 + b := by
  have h := Nat.mul_add_lt_is_or (i := 8) (show b < 2 ^ 8 by omega) a
  rw [show (2:Nat) ^ 8 = 256 from by norm_num, Nat.mul_comm 256 a] at h
  exact h.symm

lemma high_xor_ge {a : Nat} (h : a < 32768) : 32768 ≤ a ^^^ 40961 := by
  by_contra hlt
  push_neg at hlt
  have h1 : (a ^^^ 40961).testBit 15 = false :=
    Nat.testBit_lt_two_pow (show a ^^^ 40961 < 2 ^ 15 by omega)
  have ha : a.testBit 15 = false :=
    Nat.testBit_lt_two_pow (show a < 2 ^ 15 by omega)
  rw [Nat.testBit_xor, ha] at h1
  simp at h1
  exact absurd h1 (by decide)

lemma crcRound_lt {t : Nat} (h : t < 65536) : crcRound t < 65536 := by
  unfold crcRound
  have h2 : t >>> 1 < 65536 := by rw [shiftRight_one_eq]; omega
  split
  · have := Nat.xor_lt_two_pow (n := 16) (show t >>> 1 < 2 ^ 16 by omega)
      (show (40961:Nat) < 2 ^ 16 by norm_num)
    omega
  · exact h2

lemma crcRound_inj {a b : Nat} (ha : a < 65536) (hb : b < 65536)
    (h : crcRound a = crcRound b) : a = b := by
  unfold crcRound at h
  rw [Nat.and_one_is_mod, Nat.and_one_is_mod, shiftRight_one_eq, shiftRight_one_eq] at h
  by_cases pa : a % 2 = 1 <;> by_cases pb : b % 2 = 1
  · rw [if_pos pa, if_pos pb] at h
    have h2 : a / 2 = b / 2 := Nat.xor_left_inj.mp h
    omega
  · rw [if_pos pa, if_neg pb] at h
    have hge := high_xor_ge (a := a / 2) (by omega)
    omega
  · rw [if_neg pa, if_pos pb] at h
    have hge := high_xor_ge (a := b / 2) (by omega)
    omega
  · rw [if_neg pa, if_neg pb] at h
    omega

lemma crcIter_lt (n : Nat) {t : Nat} (h : t < 65536) : crcRound^[n] t < 65536 := by
  induction n generalizing t with
  | zero => simpa using h
  | succ k ih =>
    rw [Function.iterate_succ_apply]
    exact ih (crcRound_lt h)

lemma crcIter_inj (n : Nat) {a b : Nat} (ha : a < 65536) (hb : b < 65536)
    (h : crcRound^[n] a = crcRound^[n] b) : a = b := by
  induction n generalizing a b with
  | zero => simpa using h
  | succ k ih =>
    rw [Function.iterate_succ_apply, Function.iterate_succ_apply] at h
    exact crcRound_inj ha hb (ih (crcRound_lt ha) (crcRound_lt hb) h)

lemma crcByte_lt {t b : Nat} (ht : t < 65536) (hb : b < 65536) : crcByte t b < 65536 := by
  unfold crcByte
  refine crcIter_lt 8 ?_
  have := Nat.xor_lt_two_pow (n := 16) (show t < 2 ^ 16 by omega) (show b < 2 ^ 16 by omega)
  omega

lemma crcByte_inj_left {t1 t2 b : Nat} (h1 : t1 < 65536) (h2 : t2 < 65536) (hb : b < 65536)
    (h : crcByte t1 b = crcByte t2 b) : t1 = t2 := by
  unfold crcByte at h
  have hx1 : t1 ^^^ b < 65536 := by
    have := Nat.xor_lt_two_pow (n := 16) (show t1 < 2 ^ 16 by omega) (show b < 2 ^ 16 by omega)
    omega
  have hx2 : t2 ^^^ b < 65536 := by
    have := Nat.xor_lt_two_pow (n := 16) (show t2 < 2 ^ 16 by omega) (show b < 2 ^ 16 by omega)
    omega
  exact Nat.xor_left_inj.mp (crcIter_inj 8 hx1 hx2 h)

lemma crcByte_inj_right {t b1 b2 : Nat} (ht : t < 65536) (hb1 : b1 < 65536) (hb2 : b2 < 65536)
    (h : crcByte t b1 = crcByte t b2) : b1 = b2 := by
  unfold crcByte at h
  have hx1 : t ^^^ b1 < 65536 := by
    have := Nat.xor_lt_two_pow (n := 16) (show t < 2 ^ 16 by omega) (show b1 < 2 ^ 16 by omega)
    omega
  have hx2 : t ^^^ b2 < 65536 := by
    have := Nat.xor_lt_two_pow (n := 16) (show t < 2 ^ 16 by omega) (show b2 < 2 ^ 16 by omega)
    omega
  exact Nat.xor_right_inj.mp (crcIter_inj 8 hx1 hx2 h)

lemma crcFold_lt {l : List Nat} (hl : ∀ x ∈ l, x < 65536) {t : Nat} (ht : t < 65536) :
    l.foldl crcByte t < 65536 := by
  induction l generalizing t with
  | nil => simpa using ht
  | cons b l2 ih =>
    simp only [List.foldl_cons]
    exact ih (fun x hx => hl x (List.mem_cons_of_mem _ hx))
      (crcByte_lt ht (hl b (List.mem_cons_self _ _)))

lemma crcFold_inj {l : List Nat} (hl : ∀ x ∈ l, x < 65536) {t1 t2 : Nat}
    (h1 : t1 < 65536) (h2 : t2 < 65536)
    (h : l.foldl crcByte t1 = l.foldl crcByte t2) : t1 = t2 := by
  induction l generalizing t1 t2 with
  | nil => simpa using h
  | cons b l2 ih =>
    simp only [List.foldl_cons] at h
    have hb := hl b (List.mem_cons_self _ _)
    exact crcByte_inj_left h1 h2 hb
      (ih (fun x hx => hl x (List.mem_cons_of_mem _ hx)) (crcByte_lt h1 hb) (crcByte_lt h2 hb) h)

lemma calcCRC_lt (msg : List Nat) : calcCRC msg < 65536 := by
  unfold calcCRC
  rw [show (0xFFFF : Nat) = 65535 from rfl, and_ffff]
  exact Nat.mod_lt _ (by norm_num)

lemma calcCRC_swap {msg : List Nat} (hl : ∀ x ∈ msg, x < 65536) :
    calcCRC msg =
      ((msg.foldl crcByte 65535) % 256) * 256 + (msg.foldl crcByte 65535) / 256 := by
  have ht : msg.foldl crcByte 65535 < 65536 := crcFold_lt hl (by norm_num)
  unfold calcCRC
  rw [show (0xFFFF : Nat) = 65535 from rfl]
  rw [shl8, shr8, lor256 _ _ (by omega), and_ffff]
  omega

lemma crcOK_append (m : List Nat) (x y : Nat) :
    crcOK (m ++ [x, y]) = (calcCRC m == (((x <<< 8) ||| y) &&& 65535)) := by
  unfold crcOK msgCRC
  have hlen : (m ++ [x, y]).length = m.length + 2 := by simp
  rw [hlen]
  rw [show m.length + 2 - 2 = m.length from by omega,
      show m.length + 2 - 1 = m.length + 1 from by omega]
  rw [List.take_left' rfl]
  rw [List.getD_eq_getElem?_getD, List.getD_eq_getElem?_getD]
  rw [List.getElem?_append_right (Nat.le_refl _), List.getElem?_append_right (by omega)]
  simp

lemma reconstruct {c : Nat} (hc : c < 65536) :
    (((c >>> 8) <<< 8) ||| (c &&& 255)) &&& 65535 = c := by
  rw [shr8, shl8, and_ff, lor256 _ _ (by omega), and_ffff]
  omega

lemma crc_roundtrip (msg : List Nat) : crcOK (appendCRC msg) = true := by
  unfold appendCRC
  rw [show (0x00FF : Nat) = 255 from rfl]
  rw [crcOK_append, reconstruct (calcCRC_lt msg)]
  simp

lemma xor_flip_ne (b i : Nat) : b ^^^ (1 <<< i) ≠ b := by
  intro h
  have h0 : b ^^^ (1 <<< i) = b ^^^ 0 := by rw [Nat.xor_zero]; exact h
  have h1 : (1 <<< i) = 0 := Nat.xor_right_inj.mp h0
  have h2 : (1:Nat) <<< i = 2 ^ i := by rw [Nat.shiftLeft_eq]; omega
  have h3 : (0:Nat) < 2 ^ i := Nat.pos_pow_of_pos i (by norm_num)
  omega

lemma calcCRC_flip_ne {pre suf : List Nat} {b d : Nat}
    (hpre : ∀ x ∈ pre, x < 65536) (hb : b < 65536) (hsuf : ∀ x ∈ suf, x < 65536)
    (hd : d < 65536) (hdne : d ≠ b) :
    calcCRC (pre ++ d :: suf) ≠ calcCRC (pre ++ b :: suf) := by
  intro heq
  have hbytes1 : ∀ x ∈ pre ++ d :: suf, x < 65536 := by
    intro x hx
    rcases List.mem_append.mp hx with h | h
    · exact hpre x h
    · rcases List.mem_cons.mp h with h | h
      · omega
      · exact hsuf x h
  have hbytes2 : ∀ x ∈ pre ++ b :: suf, x < 65536 := by
    intro x hx
    rcases List.mem_append.mp hx with h | h
    · exact hpre x h
    · rcases List.mem_cons.mp h with h | h
      · omega
      · exact hsuf x h
  rw [calcCRC_swap hbytes1, calcCRC_swap hbytes2] at heq
  have ht1 : (pre ++ d :: suf).foldl crcByte 65535 < 65536 := crcFold_lt hbytes1 (by norm_num)
  have ht2 : (pre ++ b :: suf).foldl crcByte 65535 < 65536 := crcFold_lt hbytes2 (by norm_num)
  have hteq : (pre ++ d :: suf).foldl crcByte 65535 = (pre ++ b :: suf).foldl crcByte 65535 := by
    omega
  rw [List.foldl_append, List.foldl_append, List.foldl_cons, List.foldl_cons] at hteq
  have hs : pre.foldl crcByte 65535 < 65536 := crcFold_lt hpre (by norm_num)
  have h3 : crcByte (pre.foldl crcByte 65535) d = crcByte (pre.foldl crcByte 65535) b :=
    crcFold_inj hsuf (crcByte_lt hs hd) (crcByte_lt hs hb) hteq
  exact hdne (crcByte_inj_right hs hd hb h3)

lemma crcOK_false_of_ne {m : List Nat} {c : Nat} (hc : c < 65536) (hne : calcCRC m ≠ c) :
    crcOK (m ++ [c >>> 8, c &&& 255]) = false := by
  rw [crcOK_append, reconstruct hc]
  exact beq_eq_false_iff_ne.mpr hne

lemma stored_ne_lo {c lo2 : Nat} (hlo : lo2 < 256) (hne : lo2 ≠ c >>> 8) :
    (((lo2 <<< 8) ||| (c &&& 255)) &&& 65535) ≠ c := by
  rw [shr8] at hne
  rw [shl8, and_ff, lor256 _ _ (by omega), and_ffff]
  omega

lemma stored_ne_hi {c hi2 : Nat} (hhi : hi2 < 256) (hne : hi2 ≠ c &&& 255) :
    ((((c >>> 8) <<< 8) ||| hi2) &&& 65535) ≠ c := by
  rw [and_ff] at hne
  rw [shr8, shl8, lor256 _ _ hhi, and_ffff]
  omega

/-- C2: appending the CRC computed by `calcCRC` (low byte first, then high
byte, as `sendTxBuffer` emits it) to any byte sequence and revalidating with
the CRC check of `validateRequest`/`validateAnswer` always passes; flipping
any single bit of the sequence, of the appended low CRC byte, or of the
appended high CRC byte always makes that check fail. -/
theorem c2_crc_roundtrip_and_single_bit_flip
    (msg pre suf : List Nat) (b i : Nat)
    (hpre : ∀ x ∈ pre, x < 256) (hb : b < 256) (hsuf : ∀ x ∈ suf, x < 256) (hi : i < 8) :
    crcOK (appendCRC msg) = true ∧
    crcOK ((pre ++ (b ^^^ (1 <<< i)) :: suf) ++
      [calcCRC (pre ++ b :: suf) >>> 8, calcCRC (pre ++ b :: suf) &&& 255]) = false ∧
    crcOK (msg ++ [(calcCRC msg >>> 8) ^^^ (1 <<< i), calcCRC msg &&& 255]) = false ∧
    crcOK (msg ++ [calcCRC msg >>> 8, (calcCRC msg &&& 255) ^^^ (1 <<< i)]) = false := by
  have hshift : (1:Nat) <<< i = 2 ^ i := by rw [Nat.shiftLeft_eq]; omega
  have hpow : (2:Nat) ^ i < 256 := by
    have h7 : (2:Nat) ^ i ≤ 2 ^ 7 := Nat.pow_le_pow_right (by norm_num) (by omega)
    omega
  refine ⟨crc_roundtrip msg, ?_, ?_, ?_⟩
  · exact crcOK_false_of_ne (calcCRC_lt _)
      (calcCRC_flip_ne (fun x hx => lt_trans (hpre x hx) (by norm_num))
        (by omega) (fun x hx => lt_trans (hsuf x hx) (by norm_num))
        (by
          rw [hshift]
          have := Nat.xor_lt_two_pow (n := 8) (show b < 2 ^ 8 by omega)
            (show 2 ^ i < 2 ^ 8 by omega)
          omega)
        (xor_flip_ne b i))
  · have hc : calcCRC msg < 65536 := calcCRC_lt msg
    have hlo : calcCRC msg >>> 8 < 256 := by rw [shr8]; omega
    have hlo2 : (calcCRC msg >>> 8) ^^^ (1 <<< i) < 256 := by
      rw [hshift]
      have := Nat.xor_lt_two_pow (n := 8) (show calcCRC msg >>> 8 < 2 ^ 8 by omega)
        (show 2 ^ i < 2 ^ 8 by omega)
      omega
    rw [crcOK_append]
    refine beq_eq_false_iff_ne.mpr ?_
    intro heq
    exact stored_ne_lo hlo2 (xor_flip_ne _ i) heq.symm
  · have hc : calcCRC msg < 65536 := calcCRC_lt msg
    have hhi : calcCRC msg &&& 255 < 256 := by rw [and_ff]; omega
    have hhi2 : (calcCRC msg &&& 255) ^^^ (1 <<< i) < 256 := by
      rw [hshift]
      have := Nat.xor_lt_two_pow (n := 8) (show calcCRC msg &&& 255 < 2 ^ 8 by omega)
        (show 2 ^ i < 2 ^ 8 by omega)
      omega
    rw [crcOK_append]
    refine beq_eq_false_iff_ne.mpr ?_
    intro heq
    exact stored_ne_hi hhi2 (xor_flip_ne _ i) heq.symm

/-- Witness for C2 at the concrete frame `[1, 6, 0, 16, 0, 77]`, flipping
bit 3 of the second byte and of each CRC byte. -/
theorem c2_crc_witness :
    crcOK (appendCRC [1, 6, 0, 16, 0, 77]) = true ∧
    crcOK (([1] ++ (6 ^^^ (1 <<< 3)) :: [0, 16, 0, 77]) ++
      [calcCRC ([1] ++ 6 :: [0, 16, 0, 77]) >>> 8,
       calcCRC ([1] ++ 6 :: [0, 16, 0, 77]) &&& 255]) = false ∧
    crcOK ([1, 6, 0, 16, 0, 77] ++
      [(calcCRC [1, 6, 0, 16, 0, 77] >>> 8) ^^^ (1 <<< 3),
       calcCRC [1, 6, 0, 16, 0, 77] &&& 255]) = false ∧
    crcOK ([1, 6, 0, 16, 0, 77] ++
      [calcCRC [1, 6, 0, 16, 0, 77] >>> 8,
       (calcCRC [1, 6, 0, 16, 0, 77] &&& 255) ^^^ (1 <<< 3)]) = false :=
  c2_crc_roundtrip_and_single_bit_flip [1, 6, 0, 16, 0, 77] [1] [0, 16, 0, 77] 6 3
    (by decide) (by decide) (by decide) (by decide)

end ModbusRtu

namespace ModbusRtu

lemma copyFold_length (g : Nat → Nat) (out : List Nat) (n : Nat) :
    ((List.range n).foldl (fun acc i => acc.set i (g i)) out).length = out.length := by
  induction n with
  | zero => rfl
  | succ k ih =>
    rw [List.range_succ, List.foldl_append]
    simp [ih]

lemma copyFold_getD (g : Nat → Nat) (out : List Nat) (n : Nat) (hn : n ≤ out.length) (j : Nat) :
    ((List.range n).foldl (fun acc i => acc.set i (g i)) out).getD j 0
      = if j < n then g j else out.getD j 0 := by
  induction n with
  | zero => simp
  | succ k ih =>
    rw [List.range_succ, List.foldl_append]
    simp only [List.foldl_cons, List.foldl_nil]
    rw [List.getD_eq_getElem?_getD, List.getElem?_set]
    by_cases hjk : k = j
    · subst hjk
      rw [if_pos rfl, if_pos (show k < _ by rw [copyFold_length]; omega), if_pos (by omega)]
      rfl
    · rw [if_neg hjk, ← List.getD_eq_getElem?_getD, ih (by omega)]
      by_cases hlt : j < k
      · rw [if_pos hlt, if_pos (by omega)]
      · rw [if_neg hlt, if_neg (by omega)]

/-- C10: the master `poll` tests the watchdog deadline before the
communication state or the available-byte count: whenever the current
millisecond reading exceeds the stored deadline, `poll` goes to `COM_IDLE`,
sets `u8lastError` to `NO_REPLY`, bumps the error counter and returns 0 —
whatever the state and whatever bytes are available. -/
theorem c10_watchdog_preempts_state_and_input (st : MB) (millis : Nat) (input : List Nat)
    (h : deadlineElapsed millis st.u32timeOut = true) :
    masterPoll st millis input =
      (0, { st with
            u8state := COM_IDLE, u8lastError := NO_REPLY,
            u16errCnt := (st.u16errCnt + 1) % 65536 }, none) := by
  simp [masterPoll, h]

/-- Witness for C10: an engine already in `COM_IDLE` with three reply bytes
available still takes the watchdog branch. -/
theorem c10_watchdog_witness :
    masterPoll sampleMaster 1 [1, 2, 3] =
      (0, { sampleMaster with
            u8state := COM_IDLE, u8lastError := NO_REPLY,
            u16errCnt := (sampleMaster.u16errCnt + 1) % 65536 }, none) :=
  c10_watchdog_preempts_state_and_input sampleMaster 1 [1, 2, 3] (by decide)

/-- C6 (amended): after a query, if no bytes arrive and the watchdog
deadline has elapsed, the first `poll()` returns 0 (not `NO_REPLY`), sets
`u8lastError` to `NO_REPLY`, increments the error counter by exactly 1
(as a `uint16_t`), and leaves the engine in `COM_IDLE`. -/
theorem c6_timeout_sets_noreply (st : MB) (millis : Nat)
    (_hstate : st.u8state = COM_WAITING)
    (h : deadlineElapsed millis st.u32timeOut = true) :
    (masterPoll st millis []).1 = 0 ∧
    (masterPoll st millis []).2.1.u8lastError = NO_REPLY ∧
    (masterPoll st millis []).2.1.u16errCnt = (st.u16errCnt + 1) % 65536 ∧
    (masterPoll st millis []).2.1.u8state = COM_IDLE ∧
    (masterPoll st millis []).2.2 = none := by
  simp [masterPoll, h]

/-- Counterexample for C6 as stated: on the elapsed watchdog the return
value of `poll()` is 0, not `NO_REPLY` (neither 255 nor its `int8_t`
reading −1). -/
theorem c6_returns_zero_not_noreply :
    (masterPoll { sampleMaster with u8state := COM_WAITING, u32timeOut := 50 } 100 []).1 = 0 ∧
    (masterPoll { sampleMaster with u8state := COM_WAITING, u32timeOut := 50 } 100 []).1
      ≠ (NO_REPLY : Int) ∧
    (masterPoll { sampleMaster with u8state := COM_WAITING, u32timeOut := 50 } 100 []).1
      ≠ toInt8 NO_REPLY := by
  decide

/-- Witness for C6 at a concrete waiting master whose deadline passed. -/
theorem c6_timeout_witness :
    (masterPoll { sampleMaster with u8state := COM_WAITING, u32timeOut := 50 } 100 []).1 = 0 ∧
    (masterPoll { sampleMaster with u8state := COM_WAITING, u32timeOut := 50 } 100 []).2.1.u8lastError = NO_REPLY ∧
    (masterPoll { sampleMaster with u8state := COM_WAITING, u32timeOut := 50 } 100 []).2.1.u16errCnt =
      (({ sampleMaster with u8state := COM_WAITING, u32timeOut := 50 } : MB).u16errCnt + 1) % 65536 ∧
    (masterPoll { sampleMaster with u8state := COM_WAITING, u32timeOut := 50 } 100 []).2.1.u8state = COM_IDLE ∧
    (masterPoll { sampleMaster with u8state := COM_WAITING, u32timeOut := 50 } 100 []).2.2 = none :=
  c6_timeout_sets_noreply { sampleMaster with u8state := COM_WAITING, u32timeOut := 50 }
    100 (by decide) (by decide)

/-- C9 counterexample: arming `u32timeOut = millis() + timeout` at
`millis() = 2^32 − 1000` with a 2000 ms timeout wraps the stored deadline
to 1000; ten milliseconds later the direct comparison `millis() > u32timeOut`
already reports the deadline elapsed, while the wrap-free reference does
not. -/
theorem c9_wrap_counterexample :
    deadlineElapsed (U32 - 990) (armDeadline (U32 - 1000) 2000) = true ∧
    elapsedRef (U32 - 1000) 2000 (U32 - 990) = false := by
  decide

/-- C9 (amended): the deadline comparisons agree with the wrap-free
reference only when neither the arming sum nor the checking read wraps
around 2^32. -/
theorem c9_deadline_agreement_without_wrap (t0 timeout t1 : Nat)
    (h1 : t0 + timeout < U32) (h2 : t1 < U32) :
    deadlineElapsed t1 (armDeadline t0 timeout) = elapsedRef t0 timeout t1 ∧
    silencePending t1 (armDeadline t0 timeout) = pendingRef t0 timeout t1 := by
  constructor
  · unfold deadlineElapsed armDeadline elapsedRef
    rw [Nat.mod_eq_of_lt h2, Nat.mod_eq_of_lt h1]
  · unfold silencePending armDeadline pendingRef
    rw [Nat.mod_eq_of_lt h2, Nat.mod_eq_of_lt h1]

/-- Witness for C9's amended agreement at wrap-free values. -/
theorem c9_deadline_agreement_witness :
    deadlineElapsed 200 (armDeadline 100 50) = elapsedRef 100 50 200 ∧
    silencePending 200 (armDeadline 100 50) = pendingRef 100 50 200 :=
  c9_deadline_agreement_without_wrap 100 50 200 (by decide) (by decide)

/-- C1: `validateRequest` accepts an FC6 request for start address 16
(its check is `u16regs > SIZE_RW_REGS`, not `>=`), and the dispatched
`process_FC6` then stores at raw index 16 of the 16-word `rw_regArea`
array — outside the declared space.  Start address 17 is rejected. -/
theorem c1_fc6_validation_gap :
    validateRequest (appendCRC [2, 6, 0, 16, 0, 77]) = 0 ∧
    (fc6WriteTarget (appendCRC [2, 6, 0, 16, 0, 77])).1 = 16 ∧
    SIZE_RW_REGS ≤ (fc6WriteTarget (appendCRC [2, 6, 0, 16, 0, 77])).1 ∧
    validateRequest (appendCRC [2, 6, 0, 17, 0, 77]) = EXC_ADDR_RANGE ∧
    (slavePoll { sampleSlave with u8lastRec := 8 } 100
        (appendCRC [2, 6, 0, 16, 0, 77]) [] 0).2.2
      = some (appendCRC [2, 6, 0, 16, 0, 77]) := by
  decide

/-- C8: draining 65 available bytes reports `ERR_BUFF_OVERFLOW`, but the
drain loop's write trace includes a write at array index 64 = `MAX_BUFFER`,
one cell past the 64-byte `au8Buffer` array. -/
theorem c8_rx_overflow_oob_write :
    (getRxBuffer sampleSlave (List.replicate 65 9)).2 = ERR_BUFF_OVERFLOW ∧
    ((rxTrace (List.replicate 65 9)).map Prod.fst).contains 64 = true ∧
    MAX_BUFFER ≤ 64 := by
  decide



lemma set_take3 {l : List Nat} (h : 3 ≤ l.length) (a b c : Nat) :
    (((l.set 0 a).set 1 b).set 2 c).take 3 = [a, b, c] := by
  rcases l with _ | ⟨x, _ | ⟨y, _ | ⟨z, t⟩⟩⟩
  · simp at h
  · simp at h
  · simp at h
  · rfl

/-- C3 counterexample: `GetRRegs`/`GetRWRegs` reject the request
`adr = 0, nRegs = 16` although `0 + 16` does not exceed the capacity 16
(the guard is `>=`, not `>`), leaving the output buffer untouched. -/
theorem c3_full_span_rejected :
    0 + 16 ≤ SIZE_R_REGS ∧
    GetRRegs (List.replicate 16 5) 0 (List.replicate 16 0) 16
      = (ERROR_OF_ADR, List.replicate 16 0) ∧
    ERROR_OF_ADR ≠ 0 ∧
    GetRWRegs (List.replicate 16 5) 0 (List.replicate 16 0) 16
      = (ERROR_OF_ADR, List.replicate 16 0) ∧
    SIZE_R_REGS < 65530 + 10 ∧
    (GetRRegs (List.replicate 16 5) 65530 (List.replicate 16 0) 10).1 = 0 ∧
    (GetRRegs (List.replicate 16 5) 65530 (List.replicate 16 0) 10).2
      ≠ List.replicate 16 0 ∧
    (GetRWRegs (List.replicate 16 5) 65530 (List.replicate 16 0) 10).1 = 0 := by
  decide

/-- C3 (amended): the accessors' guard is the 16-bit sum: `GetRRegs` and
`GetRWRegs` return `ERROR_OF_ADR` and leave the output buffer untouched
exactly when `(adr + n) % 2^16 ≥ 16` — so the legal full-span request
`adr + n = 16` is also rejected, while a wrapping sum (such as
`adr = 65530, n = 10`, whose true sum is far beyond the capacity) slips
past the guard and the call succeeds, its loop reading outside the
16-word array in the C (here, `getD` outside the list yields the
default 0, so only the success status and the buffer modification are
asserted in that regime).  When the un-wrapped sum satisfies
`adr + n < 16` and the output buffer has room for the `n` values, the
call copies exactly the requested values and leaves the rest of the
output buffer unchanged. -/
theorem c3_getregs_bounds (store out : List Nat) (adr n : Nat) :
    (16 ≤ (adr + n) % 65536 →
      GetRRegs store adr out n = (ERROR_OF_ADR, out) ∧
      GetRWRegs store adr out n = (ERROR_OF_ADR, out)) ∧
    ((adr + n) % 65536 < 16 →
      (GetRRegs store adr out n).1 = 0 ∧ (GetRWRegs store adr out n).1 = 0) ∧
    (adr + n < 16 → n ≤ out.length →
      (∀ i, i < n → (GetRRegs store adr out n).2.getD i 0 = store.getD (adr + i) 0) ∧
      (∀ i, n ≤ i → (GetRRegs store adr out n).2.getD i 0 = out.getD i 0) ∧
      (∀ i, i < n → (GetRWRegs store adr out n).2.getD i 0 = store.getD (adr + i) 0) ∧
      (∀ i, n ≤ i → (GetRWRegs store adr out n).2.getD i 0 = out.getD i 0)) := by
  refine ⟨fun hge => ⟨?_, ?_⟩, fun hlt => ⟨?_, ?_⟩, fun hlt hn => ?_⟩
  · unfold GetRRegs
    simp only [SIZE_R_REGS]
    rw [if_pos hge]
  · unfold GetRWRegs
    simp only [SIZE_RW_REGS]
    rw [if_pos hge]
  · unfold GetRRegs
    simp only [SIZE_R_REGS]
    rw [if_neg (by omega)]
  · unfold GetRWRegs
    simp only [SIZE_RW_REGS]
    rw [if_neg (by omega)]
  · have hmod : (adr + n) % 65536 = adr + n := Nat.mod_eq_of_lt (by omega)
    have hr : GetRRegs store adr out n =
        (0, (List.range n).foldl
          (fun acc i => acc.set i (store.getD ((adr + i) % 65536) 0)) out) := by
      unfold GetRRegs
      simp only [SIZE_R_REGS]
      rw [hmod, if_neg (by omega)]
    have hrw : GetRWRegs store adr out n =
        (0, (List.range n).foldl
          (fun acc i => acc.set i (store.getD ((adr + i) % 65536) 0)) out) := by
      unfold GetRWRegs
      simp only [SIZE_RW_REGS]
      rw [hmod, if_neg (by omega)]
    rw [hr, hrw]
    refine ⟨?_, ?_, ?_, ?_⟩ <;> intro i hi <;>
      rw [copyFold_getD (fun i => store.getD ((adr + i) % 65536) 0) out n hn i]
    · rw [if_pos hi, Nat.mod_eq_of_lt (by omega)]
    · rw [if_neg (by omega)]
    · rw [if_pos hi, Nat.mod_eq_of_lt (by omega)]
    · rw [if_neg (by omega)]

/-- Witness for C3's amended bounds at a concrete store and request. -/
theorem c3_getregs_bounds_witness :
    (16 ≤ (2 + 3) % 65536 →
      GetRRegs ((List.range 16).map (fun k => 100 + k)) 2 (List.replicate 16 0) 3
        = (ERROR_OF_ADR, List.replicate 16 0) ∧
      GetRWRegs ((List.range 16).map (fun k => 100 + k)) 2 (List.replicate 16 0) 3
        = (ERROR_OF_ADR, List.replicate 16 0)) ∧
    ((2 + 3) % 65536 < 16 →
      (GetRRegs ((List.range 16).map (fun k => 100 + k)) 2 (List.replicate 16 0) 3).1 = 0 ∧
      (GetRWRegs ((List.range 16).map (fun k => 100 + k)) 2 (List.replicate 16 0) 3).1 = 0) ∧
    (2 + 3 < 16 → 3 ≤ (List.replicate 16 0).length →
      (∀ i, i < 3 →
        (GetRRegs ((List.range 16).map (fun k => 100 + k)) 2 (List.replicate 16 0) 3).2.getD i 0
          = ((List.range 16).map (fun k => 100 + k)).getD (2 + i) 0) ∧
      (∀ i, 3 ≤ i →
        (GetRRegs ((List.range 16).map (fun k => 100 + k)) 2 (List.replicate 16 0) 3).2.getD i 0
          = (List.replicate 16 0).getD i 0) ∧
      (∀ i, i < 3 →
        (GetRWRegs ((List.range 16).map (fun k => 100 + k)) 2 (List.replicate 16 0) 3).2.getD i 0
          = ((List.range 16).map (fun k => 100 + k)).getD (2 + i) 0) ∧
      (∀ i, 3 ≤ i →
        (GetRWRegs ((List.range 16).map (fun k => 100 + k)) 2 (List.replicate 16 0) 3).2.getD i 0
          = (List.replicate 16 0).getD i 0)) :=
  c3_getregs_bounds ((List.range 16).map (fun k => 100 + k)) (List.replicate 16 0) 2 3

/-- C5 (amended): the three `query` guards, in the source's order: a
nonzero own node address returns −2 (the code the enum calls
`ERR_POLLING`), a busy state returns −1 (`ERR_NOT_MASTER`), a telegram
target of 0 or above 247 returns −3 (`ERR_BUFF_OVERFLOW`); in each case
the state is returned unchanged and nothing is transmitted. -/
theorem c5_query_guard_returns (st : MB) (tel : Telegram) (millis : Nat) :
    (st.u8id ≠ 0 → query st tel millis = (-2, st, none)) ∧
    (st.u8id = 0 → st.u8state ≠ COM_IDLE → query st tel millis = (-1, st, none)) ∧
    (st.u8id = 0 → st.u8state = COM_IDLE → (tel.u8id = 0 ∨ tel.u8id > 247) →
      query st tel millis = (-3, st, none)) := by
  refine ⟨fun h1 => ?_, fun h1 h2 => ?_, fun h1 h2 h3 => ?_⟩
  · unfold query
    rw [if_pos h1]
  · unfold query
    rw [if_neg (fun hne => hne h1), if_pos h2]
  · unfold query
    rw [if_neg (fun hne => hne h1), if_neg (fun hne => hne h2), if_pos h3]

/-- C5 counterexample: the numeric guard returns cross the enum's names —
the non-master call returns `ERR_POLLING` (−2), not `ERR_NOT_MASTER`; the
busy call returns `ERR_NOT_MASTER` (−1); the invalid-target call returns
the value the enum calls `ERR_BUFF_OVERFLOW` (−3). -/
theorem c5_query_error_code_mismatch :
    (query { sampleMaster with u8id := 5 } sampleTelegram 0).1 = ERR_POLLING ∧
    ERR_POLLING ≠ ERR_NOT_MASTER ∧
    (query { sampleMaster with u8state := COM_WAITING } sampleTelegram 0).1 = ERR_NOT_MASTER ∧
    (query sampleMaster { sampleTelegram with u8id := 0 } 0).1 = ERR_BUFF_OVERFLOW ∧
    (query sampleMaster { sampleTelegram with u8id := 248 } 0).1 = ERR_BUFF_OVERFLOW := by
  decide

/-- Witness for C5's guard behavior: the non-master call at a concrete
state transmits nothing and leaves the state unchanged. -/
theorem c5_query_guards_witness :
    query { sampleMaster with u8id := 5 } sampleTelegram 0
      = (-2, { sampleMaster with u8id := 5 }, none) :=
  (c5_query_guard_returns { sampleMaster with u8id := 5 } sampleTelegram 0).1 (by decide)

theorem c7_crc_silent_or_exception_reply (st : MB) (millis : Nat) (input regs : List Nat)
    (u8size : Nat)
    (hlen7 : 7 ≤ input.length) (hlen64 : input.length < 64)
    (hrec : st.u8lastRec = input.length)
    (hsil : silencePending millis st.u32time = false)
    (hid : input.getD 0 0 = st.u8id) :
    (validateRequest input = NO_REPLY → (slavePoll st millis input regs u8size).2.2 = none) ∧
    (validateRequest input ≠ 0 → validateRequest input ≠ NO_REPLY →
      (slavePoll st millis input regs u8size).2.2 =
        some (appendCRC [st.u8id, (input.getD 1 0 + 128) % 256, validateRequest input])) := by
  have hmod : input.length % 256 = input.length := Nat.mod_eq_of_lt (by omega)
  have h0 : ¬(input.length = 0) := by omega
  have hr2 : ¬(input.length ≠ st.u8lastRec) := fun h => h hrec.symm
  have h64 : ¬(MAX_BUFFER ≤ input.length) := by simp only [MAX_BUFFER]; omega
  have h7 : ¬(((input.length : Nat) : Int) < 7) := by
    push_neg
    exact_mod_cast (by omega : (7:Nat) ≤ input.length)
  have hidne : ¬(input.getD ID 0 ≠ st.u8id) := fun h => h (by simpa [ID] using hid)
  constructor
  · intro hv
    simp [slavePoll, getRxBuffer, hmod, hsil, h0, hr2, h64, h7, hidne, hv, NO_REPLY]
    split <;> rfl
  · intro hvne0 hvne255
    have hvpos : validateRequest input > 0 := Nat.pos_of_ne_zero hvne0
    simp only [slavePoll, getRxBuffer, hmod, hsil, Bool.false_eq_true, if_false]
    rw [if_neg h0, if_neg hr2]
    rw [if_neg h64, if_neg h64]
    rw [if_neg h7]
    rw [if_neg hidne]
    rw [if_pos hvpos, if_pos hvne255]
    simp only [buildException, sendTxBuffer, EXCEPTION_SIZE, ID, FUNC]
    rw [set_take3 (by omega)]

/-- C7 counterexample: a request whose function byte is 0x80 (CRC valid,
code unsupported) gets the exception reply `[2, 0, 1, CRC]`: the reply's
function byte is `(0x80 + 0x80) % 256 = 0`, whose 0x80 bit is clear — not
"the request's function code with bit 0x80 set". -/
theorem c7_exception_func_byte_counterexample :
    (slavePoll sampleSlave 100 (appendCRC [2, 128, 0, 0, 0]) [] 0).2.2 =
      some (appendCRC [2, 0, 1]) ∧
    (appendCRC [2, 0, 1]).getD 1 0 &&& 0x80 = 0 ∧
    validateRequest (appendCRC [2, 128, 0, 0, 0]) = EXC_FUNC_CODE ∧
    (appendCRC [2, 128, 0, 0, 0]).getD 1 0 = 128 := by
  decide

/-- Witness for C7: a CRC-mismatched frame gets no reply; an unsupported
function code 7 gets the exception frame built from the slave id, the
function byte plus 0x80, and the exception code. -/
theorem c7_exception_reply_witness :
    (slavePoll { sampleSlave with u8lastRec := 8 } 100 [2, 3, 0, 0, 0, 1, 9, 9] [] 0).2.2
      = none ∧
    (slavePoll sampleSlave 100 (appendCRC [2, 7, 0, 0, 0]) [] 0).2.2 =
      some (appendCRC [sampleSlave.u8id,
        ((appendCRC [2, 7, 0, 0, 0]).getD 1 0 + 128) % 256,
        validateRequest (appendCRC [2, 7, 0, 0, 0])]) :=
  ⟨(c7_crc_silent_or_exception_reply { sampleSlave with u8lastRec := 8 } 100
      [2, 3, 0, 0, 0, 1, 9, 9] [] 0
      (by decide) (by decide) (by decide) (by decide) (by decide)).1 (by decide),
   (c7_crc_silent_or_exception_reply sampleSlave 100 (appendCRC [2, 7, 0, 0, 0]) [] 0
      (by decide) (by decide) (by decide) (by decide) (by decide)).2 (by decide) (by decide)⟩

end ModbusRtu
